import Mathlib

/-!
Verification of the car-rental service (`src/index.js`, `src/lib/utils.js`).

Modelling conventions for the shallow embedding:

* Money is modelled in integer cents (`daily_rate` `'35.00'` becomes `3500`).
  The source multiplies `parseFloat(daily_rate)` by an integer day count and
  formats with `toFixed(2)`; for cent-valued rates that product is exact, so
  the cents model observes the same values.
* A JavaScript date value is modelled as `Option Int`: `some t` is a
  successfully parsed timestamp in milliseconds since the epoch, `none` is an
  `Invalid Date` (`NaN` time value).
* A request field is `Option`-wrapped: `none` models a field that is absent or
  falsy (the source guards with `if (!field)` / `if (field)`), so for a date
  field the type is `Option (Option Int)` — present-but-unparsable is
  `some none`.
* `created_at` / `updated_at` timestamps are modelled by a per-state sequence
  counter `seq` that increases on every mutating operation, standing for the
  strictly increasing wall-clock stamps the source writes.
* The durable (MySQL) backend is modelled from the SQL the source issues:
  tables are lists of rows, `AUTO_INCREMENT` is an explicit `nextRentalId`
  counter, `SELECT ... ORDER BY` sorts the rows.
-/

namespace CarRental

/-- Rental status, the `ENUM('ongoing','returned','cancelled')` of the schema. -/
inductive Status where
  | ongoing
  | returned
  | cancelled
deriving Repr, DecidableEq

/-- A row of the `cars` table / an element of `inMemoryCars`. -/
structure Car where
  id : Nat
  make : String
  carModel : String
  year : Nat
  daily_rate_cents : Nat
  available : Bool
deriving Repr, DecidableEq

/-- A row of the `rentals` table / an element of `inMemoryRentals`. -/
structure Rental where
  id : Nat
  car_id : Nat
  renter_name : String
  start_date : Option Int
  end_date : Option Int
  total_cost_cents : Nat
  status : Status
  created_at : Nat
  updated_at : Nat
deriving Repr, DecidableEq

/-- Milliseconds per day, `1000 * 60 * 60 * 24` from the source. -/
def msPerDay : Int := 1000 * 60 * 60 * 24

/-- JavaScript `Math.ceil(a / b)` for integers `a` and positive `b`:
the least integer not below the rational `a / b`. -/
def jsCeilDiv (a b : Int) : Int := -((-a).fdiv b)

/-- The `daysInclusive` function of `src/lib/utils.js`, over parsed inputs:
`none` models a string whose `new Date(...)` is invalid (`isNaN` time value). -/
def daysInclusive : Option Int → Option Int → Nat
  | some s, some e =>
      if e < s then 0
      else max 1 ((jsCeilDiv (e - s) msPerDay + 1).toNat)
  | none, _ => 0
  | some _, none => 0

theorem jsCeilDiv_nonneg_of_msPerDay {a : Int} (ha : 0 ≤ a) :
    0 ≤ jsCeilDiv a msPerDay := by
  unfold jsCeilDiv msPerDay
  rw [Int.fdiv_eq_ediv _ (by omega)]
  omega

theorem daysInclusive_pos {s e : Int} (h : s ≤ e) :
    daysInclusive (some s) (some e) = (jsCeilDiv (e - s) msPerDay + 1).toNat ∧
      1 ≤ daysInclusive (some s) (some e) := by
  have hnn : 0 ≤ jsCeilDiv (e - s) msPerDay :=
    jsCeilDiv_nonneg_of_msPerDay (by omega)
  simp only [daysInclusive, if_neg (by omega : ¬ e < s)]
  omega

theorem daysInclusive_ne_zero {sd ed : Option Int} (h : daysInclusive sd ed ≠ 0) :
    ∃ s e, sd = some s ∧ ed = some e ∧ s ≤ e := by
  match sd, ed with
  | none, _ => exact absurd rfl h
  | some _, none => exact absurd rfl h
  | some s, some e =>
    refine ⟨s, e, rfl, rfl, ?_⟩
    by_contra hc
    exact h (by simp only [daysInclusive, if_pos (by omega : e < s)])

/-- The body of `POST /api/rentals`; `none` models an absent or falsy field. -/
structure CreateReq where
  car_id : Option Nat
  renter_name : Option String
  start_date : Option (Option Int)
  end_date : Option (Option Int)
deriving Repr, DecidableEq

/-- The body of `PUT /api/rentals/:id`; `none` models an absent or falsy field. -/
structure UpdateReq where
  status : Option Status
  end_date : Option (Option Int)
deriving Repr, DecidableEq

/-- The error kinds the handlers produce. `validationMissing`, `invalidDates`
and `invalidEndDate` are 400 ValidationError responses, `carUnavailable` is the
400 "Car is not available for rental" ConflictError, `carNotFound` and
`rentalNotFound` are 404 responses, `internalError` is the catch-all 500
(reached only when an updated rental's car row is missing, which cannot happen
in states reachable from the seed). -/
inductive RErr where
  | validationMissing
  | carNotFound
  | carUnavailable
  | invalidDates
  | rentalNotFound
  | invalidEndDate
  | internalError
deriving Repr, DecidableEq

/-- The fields `PUT /api/rentals/:id` echoes back on success. -/
structure UpdResult where
  id : Nat
  status : Status
  end_date : Option Int
  total_cost_cents : Nat
deriving Repr, DecidableEq

/-- A row of `GET /api/rentals`: a rental joined with its car's descriptive
fields. The volatile branch joins with `find(...) || {}`, so the car fields are
`Option`s (`none` when the car row is missing). -/
structure JoinedRental where
  rental : Rental
  make : Option String
  carModel : Option String
  year : Option Nat
  daily_rate_cents : Option Nat
deriving Repr, DecidableEq

/-- The numbers `updateMetrics` / the store's aggregate computes (revenue in
cents). -/
structure Agg where
  total : Nat
  active : Nat
  revenue_cents : Nat
deriving Repr, DecidableEq

/-- Result of one operation, the observable outcome a claim compares. -/
inductive OpResult where
  | cars (cs : List Car)
  | rentals (rs : List JoinedRental)
  | created (r : Rental)
  | updated (u : UpdResult)
  | deleted
  | agg (a : Agg)
  | err (e : RErr)
deriving Repr, DecidableEq

/-- State of the volatile (in-memory) backend: `inMemoryCars`,
`inMemoryRentals`, and the timestamp sequence counter. -/
structure VolState where
  cars : List Car
  rentals : List Rental
  seq : Nat
deriving Repr, DecidableEq

/-- State of the durable (MySQL) backend: the two tables, the rentals table's
`AUTO_INCREMENT` counter, and the timestamp sequence counter. -/
structure DurState where
  cars : List Car
  rentals : List Rental
  nextRentalId : Nat
  seq : Nat
deriving Repr, DecidableEq

/-- `cars.find(c => c.id === cid)` / `SELECT * FROM cars WHERE id = cid`. -/
def findCar (cars : List Car) (cid : Nat) : Option Car :=
  cars.find? (fun c => c.id == cid)

/-- `rentals.find(r => r.id === rid)` / `SELECT * FROM rentals WHERE id = rid`. -/
def findRental (rentals : List Rental) (rid : Nat) : Option Rental :=
  rentals.find? (fun r => r.id == rid)

/-- `car.available = b` on the car with id `cid` /
`UPDATE cars SET available = b WHERE id = cid`. -/
def setAvail (cars : List Car) (cid : Nat) (b : Bool) : List Car :=
  cars.map (fun c => if c.id == cid then { c with available := b } else c)

/-- `Math.max(...rentals.map(r => r.id))`, with `0` for the empty list. -/
def maxRentalId (rentals : List Rental) : Nat :=
  rentals.foldl (fun m r => max m r.id) 0

/-- The volatile backend's id allocation:
`inMemoryRentals.length ? Math.max(...inMemoryRentals.map(r => r.id)) + 1 : 1`. -/
def nextVolId (rentals : List Rental) : Nat :=
  if rentals.isEmpty then 1 else maxRentalId rentals + 1

/-- Writing the updated rental object back: the in-memory branch mutates the
found rental in place, the durable branch runs `UPDATE rentals ... WHERE id`;
both replace the (unique) rental with that id. -/
def replaceRental (rentals : List Rental) (rid : Nat) (r' : Rental) : List Rental :=
  rentals.map (fun r => if r.id == rid then r' else r)

/-- The in-memory branch of `app.post('/api/rentals')`. Guard order from the
source: required fields, car lookup, availability, `daysInclusive` = 0. On
success the rental is pushed with status `ongoing` and the car's `available`
is set to `0`. -/
def volCreate (st : VolState) (req : CreateReq) : OpResult × VolState :=
  match req.car_id, req.renter_name, req.start_date, req.end_date with
  | some cid, some name, some sd, some ed =>
    match findCar st.cars cid with
    | none => (.err .carNotFound, st)
    | some car =>
      if car.available = false then (.err .carUnavailable, st)
      else
        let days := daysInclusive sd ed
        if days = 0 then (.err .invalidDates, st)
        else
          let cost := car.daily_rate_cents * days
          let newId := nextVolId st.rentals
          let r : Rental :=
            { id := newId, car_id := cid, renter_name := name,
              start_date := sd, end_date := ed, total_cost_cents := cost,
              status := .ongoing, created_at := st.seq, updated_at := st.seq }
          (.created r,
            { cars := setAvail st.cars cid false,
              rentals := st.rentals ++ [r],
              seq := st.seq + 1 })
  | _, _, _, _ => (.err .validationMissing, st)

/-- Day count of the durable Create branch:
`isNaN(start) || isNaN(end) || end < start` is rejected (`none`), otherwise
`Math.ceil((end - start) / msPerDay) + 1` — note: no `Math.max(1, ...)` floor
here, unlike `daysInclusive`. -/
def durDays : Option Int → Option Int → Option Nat
  | some s, some e =>
      if e < s then none else some ((jsCeilDiv (e - s) msPerDay + 1).toNat)
  | none, _ => none
  | some _, none => none

/-- The durable branch of `app.post('/api/rentals')`. Same guard order as the
in-memory branch; the date guard and day count are `durDays`; the INSERT takes
the next `AUTO_INCREMENT` id and the row's status defaults to `ongoing`. The
result is the persisted row. -/
def durCreate (st : DurState) (req : CreateReq) : OpResult × DurState :=
  match req.car_id, req.renter_name, req.start_date, req.end_date with
  | some cid, some name, some sd, some ed =>
    match findCar st.cars cid with
    | none => (.err .carNotFound, st)
    | some car =>
      if car.available = false then (.err .carUnavailable, st)
      else
        match durDays sd ed with
        | none => (.err .invalidDates, st)
        | some days =>
          let cost := car.daily_rate_cents * days
          let r : Rental :=
            { id := st.nextRentalId, car_id := cid, renter_name := name,
              start_date := sd, end_date := ed, total_cost_cents := cost,
              status := .ongoing, created_at := st.seq, updated_at := st.seq }
          (.created r,
            { cars := setAvail st.cars cid false,
              rentals := st.rentals ++ [r],
              nextRentalId := st.nextRentalId + 1,
              seq := st.seq + 1 })
  | _, _, _, _ => (.err .validationMissing, st)

/-- The in-memory branch of `app.put('/api/rentals/:id')`: find the rental
(404 if absent); if `end_date` is present recompute the day count from the
stored `start_date` (400 on 0) and the cost from the car's rate (the car
dereference throws into the 500 handler when the car row is missing); if
`status` is present store it unconditionally and, exactly when it is
`returned`, set the car's `available` to `1`. -/
def volUpdate (st : VolState) (rid : Nat) (req : UpdateReq) : OpResult × VolState :=
  match findRental st.rentals rid with
  | none => (.err .rentalNotFound, st)
  | some rental =>
    let step1 : Except RErr Rental :=
      match req.end_date with
      | none => .ok rental
      | some ed =>
        let days := daysInclusive rental.start_date ed
        if days = 0 then .error .invalidEndDate
        else
          match findCar st.cars rental.car_id with
          | none => .error .internalError
          | some car =>
            .ok { rental with end_date := ed,
                              total_cost_cents := car.daily_rate_cents * days }
    match step1 with
    | .error e => (.err e, st)
    | .ok r1 =>
      let r2 := match req.status with
        | some s => { r1 with status := s }
        | none => r1
      let cars' := if req.status = some .returned
        then setAvail st.cars rental.car_id true
        else st.cars
      let r3 := { r2 with updated_at := st.seq }
      (.updated { id := rental.id, status := r3.status,
                  end_date := r3.end_date, total_cost_cents := r3.total_cost_cents },
        { cars := cars',
          rentals := replaceRental st.rentals rid r3,
          seq := st.seq + 1 })

/-- The durable branch of `app.put('/api/rentals/:id')`: select the rental
(404 if absent); if `end_date` is present check `isNaN(end) || end < start`
(400) and recompute the cost from the car's `daily_rate` (the dereference of a
missing car row throws into the 500 handler); then one UPDATE writes
`end_date || old`, the recomputed or old cost and `status || old`, and a
second UPDATE sets the car available exactly when the new status is
`returned`. The source does not re-check a stored `start_date` that fails to
parse, but such a row is unreachable (creation rejects invalid dates), so that
path is modelled as the 500 catch-all too. -/
def durUpdate (st : DurState) (rid : Nat) (req : UpdateReq) : OpResult × DurState :=
  match findRental st.rentals rid with
  | none => (.err .rentalNotFound, st)
  | some rental =>
    let step1 : Except RErr Rental :=
      match req.end_date with
      | none => .ok rental
      | some ed =>
        match ed, rental.start_date with
        | none, _ => .error .invalidEndDate
        | some _, none => .error .internalError
        | some e, some s =>
          if e < s then .error .invalidEndDate
          else
            match findCar st.cars rental.car_id with
            | none => .error .internalError
            | some car =>
              let days := (jsCeilDiv (e - s) msPerDay + 1).toNat
              .ok { rental with end_date := ed,
                                total_cost_cents := car.daily_rate_cents * days }
    match step1 with
    | .error e => (.err e, st)
    | .ok r1 =>
      let newStatus := match req.status with
        | some s => s
        | none => rental.status
      let r2 := { r1 with status := newStatus, updated_at := st.seq }
      let cars' := if req.status = some .returned
        then setAvail st.cars rental.car_id true
        else st.cars
      (.updated { id := rid, status := newStatus,
                  end_date := r2.end_date, total_cost_cents := r2.total_cost_cents },
        { cars := cars',
          rentals := replaceRental st.rentals rid r2,
          nextRentalId := st.nextRentalId,
          seq := st.seq + 1 })

/-- The in-memory branch of `app.delete('/api/rentals/:id')`: `findIndex`,
404 when absent, otherwise `splice` out that one element. Cars are untouched. -/
def volDelete (st : VolState) (rid : Nat) : OpResult × VolState :=
  if st.rentals.any (fun r => r.id == rid) then
    (.deleted, { st with rentals := st.rentals.eraseP (fun r => r.id == rid) })
  else (.err .rentalNotFound, st)

/-- The durable branch of `app.delete('/api/rentals/:id')`:
`DELETE FROM rentals WHERE id = rid`, 404 when `affectedRows` is 0. -/
def durDelete (st : DurState) (rid : Nat) : OpResult × DurState :=
  let remaining := st.rentals.filter (fun r => !(r.id == rid))
  if remaining.length == st.rentals.length then (.err .rentalNotFound, st)
  else (.deleted, { st with rentals := remaining })

/-- Sum of `total_cost` over a list of rentals, in cents. -/
def sumCost (rentals : List Rental) : Nat :=
  rentals.foldl (fun s r => s + r.total_cost_cents) 0

/-- The in-memory branch of `updateMetrics`: total count, count with status
`ongoing`, and `reduce((sum, r) => sum + parseFloat(r.total_cost || 0), 0)` —
the revenue sums over ALL rentals, with no status filter. -/
def volAggregate (st : VolState) : Agg :=
  { total := st.rentals.length,
    active := (st.rentals.filter (fun r => r.status == .ongoing)).length,
    revenue_cents := sumCost st.rentals }

/-- The durable branch of `updateMetrics`: two COUNT queries and
`SELECT SUM(total_cost) FROM rentals WHERE status IN ("ongoing", "returned")` —
the revenue excludes `cancelled` rentals. -/
def durAggregate (st : DurState) : Agg :=
  { total := st.rentals.length,
    active := (st.rentals.filter (fun r => r.status == .ongoing)).length,
    revenue_cents :=
      sumCost (st.rentals.filter
        (fun r => r.status == .ongoing || r.status == .returned)) }

/-- Joined row carrying the car's descriptive fields. -/
def joinWith (r : Rental) (c : Car) : JoinedRental :=
  { rental := r, make := some c.make, carModel := some c.carModel,
    year := some c.year, daily_rate_cents := some c.daily_rate_cents }

/-- The in-memory join of `GET /api/rentals`:
`inMemoryCars.find(c => c.id === r.car_id) || {}` — a missing car yields
`undefined` car fields (`none`), the rental row is kept. -/
def volJoin (st : VolState) : List JoinedRental :=
  st.rentals.map (fun r =>
    match findCar st.cars r.car_id with
    | some c => joinWith r c
    | none => { rental := r, make := none, carModel := none,
                year := none, daily_rate_cents := none })

/-- The durable join of `GET /api/rentals`:
`FROM rentals r JOIN cars c ON r.car_id = c.id` — an inner join, a rental
without a matching car row is dropped. -/
def durJoin (st : DurState) : List JoinedRental :=
  st.rentals.filterMap (fun r => (findCar st.cars r.car_id).map (joinWith r))

/-- Insertion step for sorting joined rows by `created_at` descending. -/
def insertByCreatedDesc (j : JoinedRental) : List JoinedRental → List JoinedRental
  | [] => [j]
  | k :: rest =>
    if j.rental.created_at < k.rental.created_at then k :: insertByCreatedDesc j rest
    else j :: k :: rest

/-- Sorting by `created_at` descending: the in-memory branch sorts with the
comparator `new Date(b.created_at) - new Date(a.created_at)`, the durable
branch asks for `ORDER BY r.created_at DESC`; the model's `created_at` stamps
are pairwise distinct, so both are this sort. -/
def sortByCreatedDesc (l : List JoinedRental) : List JoinedRental :=
  l.foldr insertByCreatedDesc []

/-- Insertion step for sorting cars by id ascending. -/
def insertById (c : Car) : List Car → List Car
  | [] => [c]
  | d :: rest =>
    if d.id < c.id then d :: insertById c rest
    else c :: d :: rest

/-- `SELECT * FROM cars ORDER BY id` over the model's rows. -/
def sortById (l : List Car) : List Car :=
  l.foldr insertById []

/-- One request against the service, at the store-abstraction level. -/
inductive Op where
  | listCars
  | listRentals
  | createRental (req : CreateReq)
  | updateRental (rid : Nat) (req : UpdateReq)
  | deleteRental (rid : Nat)
  | aggregate
deriving Repr, DecidableEq

/-- One request against the volatile backend. `GET /api/cars` returns
`inMemoryCars` as stored. -/
def volStep (st : VolState) : Op → OpResult × VolState
  | .listCars => (.cars st.cars, st)
  | .listRentals => (.rentals (sortByCreatedDesc (volJoin st)), st)
  | .createRental req => volCreate st req
  | .updateRental rid req => volUpdate st rid req
  | .deleteRental rid => volDelete st rid
  | .aggregate => (.agg (volAggregate st), st)

/-- One request against the durable backend. `GET /api/cars` runs
`SELECT * FROM cars ORDER BY id`. -/
def durStep (st : DurState) : Op → OpResult × DurState
  | .listCars => (.cars (sortById st.cars), st)
  | .listRentals => (.rentals (sortByCreatedDesc (durJoin st)), st)
  | .createRental req => durCreate st req
  | .updateRental rid req => durUpdate st rid req
  | .deleteRental rid => durDelete st rid
  | .aggregate => (.agg (durAggregate st), st)

/-- The three sample cars both backends seed on first run
(rates 35.00, 37.50, 30.00, all available). -/
def seedCars : List Car :=
  [ { id := 1, make := "Toyota", carModel := "Corolla", year := 2020,
      daily_rate_cents := 3500, available := true },
    { id := 2, make := "Honda", carModel := "Civic", year := 2019,
      daily_rate_cents := 3750, available := true },
    { id := 3, make := "Ford", carModel := "Focus", year := 2018,
      daily_rate_cents := 3000, available := true } ]

/-- Freshly seeded volatile state. -/
def volInit : VolState := { cars := seedCars, rentals := [], seq := 0 }

/-- Freshly seeded durable state (`AUTO_INCREMENT` of `rentals` starts at 1). -/
def durInit : DurState :=
  { cars := seedCars, rentals := [], nextRentalId := 1, seq := 0 }

/-- Run a sequence of operations against the volatile backend, collecting each
operation's result. -/
def volRun (st : VolState) : List Op → List OpResult × VolState
  | [] => ([], st)
  | op :: ops =>
    let s := volStep st op
    let rest := volRun s.2 ops
    (s.1 :: rest.1, rest.2)

/-- Run a sequence of operations against the durable backend, collecting each
operation's result. -/
def durRun (st : DurState) : List Op → List OpResult × DurState
  | [] => ([], st)
  | op :: ops =>
    let s := durStep st op
    let rest := durRun s.2 ops
    (s.1 :: rest.1, rest.2)

/-! Helper lemmas about the store primitives. -/

theorem findCar_id {cars : List Car} {cid : Nat} {c : Car}
    (h : findCar cars cid = some c) : c.id = cid := by
  have := List.find?_some h
  simpa using this

theorem findRental_id {rentals : List Rental} {rid : Nat} {r : Rental}
    (h : findRental rentals rid = some r) : r.id = rid := by
  have := List.find?_some h
  simpa using this

theorem findRental_mem {rentals : List Rental} {rid : Nat} {r : Rental}
    (h : findRental rentals rid = some r) : r ∈ rentals :=
  List.mem_of_find?_eq_some h

theorem setAvail_map_id (cars : List Car) (cid : Nat) (b : Bool) :
    (setAvail cars cid b).map Car.id = cars.map Car.id := by
  unfold setAvail
  rw [List.map_map]
  apply List.map_congr_left
  intro c _
  simp only [Function.comp_apply]
  split <;> rfl

theorem findCar_setAvail (cars : List Car) (cid x : Nat) (b : Bool) :
    findCar (setAvail cars cid b) x =
      (findCar cars x).map (fun c => if c.id == cid then { c with available := b } else c) := by
  unfold findCar setAvail
  rw [List.find?_map]
  have hpred : ((fun c => c.id == x) ∘
      fun c => if c.id == cid then { c with available := b } else c) =
      (fun (c : Car) => c.id == x) := by
    funext c
    simp only [Function.comp_apply]
    split <;> rfl
  rw [hpred]

theorem findCar_setAvail_self {cars : List Car} {cid : Nat} {c : Car} (b : Bool)
    (h : findCar cars cid = some c) :
    findCar (setAvail cars cid b) cid = some { c with available := b } := by
  rw [findCar_setAvail, h]
  have : c.id = cid := findCar_id h
  simp [this]

theorem findCar_setAvail_isSome (cars : List Car) (cid x : Nat) (b : Bool) :
    (findCar (setAvail cars cid b) x).isSome = (findCar cars x).isSome := by
  rw [findCar_setAvail]
  cases findCar cars x <;> rfl

theorem replaceRental_map_id {rentals : List Rental} {rid : Nat} {r' : Rental}
    (h : r'.id = rid) :
    (replaceRental rentals rid r').map Rental.id = rentals.map Rental.id := by
  unfold replaceRental
  rw [List.map_map]
  apply List.map_congr_left
  intro r _
  simp only [Function.comp_apply]
  by_cases hr : r.id = rid
  · simp [hr, h]
  · simp [hr]

theorem maxRentalId_eq_foldl_ids (rentals : List Rental) :
    maxRentalId rentals = (rentals.map Rental.id).foldl max 0 := by
  simp [maxRentalId, List.foldl_map]

theorem maxRentalId_congr {rs rs' : List Rental}
    (h : rs.map Rental.id = rs'.map Rental.id) :
    maxRentalId rs = maxRentalId rs' := by
  rw [maxRentalId_eq_foldl_ids, maxRentalId_eq_foldl_ids, h]

theorem nextVolId_congr {rs rs' : List Rental}
    (h : rs.map Rental.id = rs'.map Rental.id) :
    nextVolId rs = nextVolId rs' := by
  unfold nextVolId
  rw [maxRentalId_congr h]
  have : rs.isEmpty = rs'.isEmpty := by
    cases rs <;> cases rs' <;> simp_all
  rw [this]

theorem nextVolId_eq_max_succ (rs : List Rental) :
    nextVolId rs = maxRentalId rs + 1 := by
  cases rs with
  | nil => rfl
  | cons r rest => rfl

theorem foldl_max_le {l : List Nat} {m : Nat} (x : Nat) (hx : x ∈ l ∨ x ≤ m) :
    x ≤ l.foldl max m := by
  induction l generalizing m with
  | nil => simpa using hx
  | cons y rest ih =>
    apply ih
    rcases hx with hx | hx
    · rcases List.mem_cons.mp hx with h | h
      · right; omega
      · left; exact h
    · right; omega

theorem le_maxRentalId {rentals : List Rental} {r : Rental} (h : r ∈ rentals) :
    r.id ≤ maxRentalId rentals := by
  rw [maxRentalId_eq_foldl_ids]
  exact foldl_max_le _ (Or.inl (List.mem_map_of_mem _ h))

theorem lt_nextVolId {rentals : List Rental} {r : Rental} (h : r ∈ rentals) :
    r.id < nextVolId rentals := by
  rw [nextVolId_eq_max_succ]
  have := le_maxRentalId h
  omega

theorem maxRentalId_append_singleton (rs : List Rental) (r : Rental) :
    maxRentalId (rs ++ [r]) = max (maxRentalId rs) r.id := by
  simp [maxRentalId, List.foldl_append]

theorem nextVolId_append_next (rs : List Rental) (r : Rental)
    (h : r.id = nextVolId rs) :
    nextVolId (rs ++ [r]) = nextVolId rs + 1 := by
  rw [nextVolId_eq_max_succ, maxRentalId_append_singleton, h,
    nextVolId_eq_max_succ]
  omega

theorem eraseP_eq_filter_of_nodup_ids {rentals : List Rental} {rid : Nat}
    (h : (rentals.map Rental.id).Nodup) :
    rentals.eraseP (fun r => r.id == rid) =
      rentals.filter (fun r => !(r.id == rid)) := by
  induction rentals with
  | nil => rfl
  | cons r rest ih =>
    simp only [List.map_cons, List.nodup_cons] at h
    by_cases hr : (r.id == rid) = true
    · have hrid : r.id = rid := by simpa using hr
      have hrest : rest.filter (fun x => !(x.id == rid)) = rest := by
        apply List.filter_eq_self.mpr
        intro x hx
        have hne : x.id ≠ rid := by
          intro hc
          exact h.1 (by rw [hrid, ← hc]; exact List.mem_map_of_mem _ hx)
        simp [hne]
      simp [List.eraseP_cons, List.filter_cons, hr, hrest]
    · simp [List.eraseP_cons, List.filter_cons, hr, ih h.2]

theorem durDays_eq_none_iff (sd ed : Option Int) :
    durDays sd ed = none ↔ daysInclusive sd ed = 0 := by
  match sd, ed with
  | none, _ => simp [durDays, daysInclusive]
  | some _, none => simp [durDays, daysInclusive]
  | some s, some e =>
    by_cases hlt : e < s
    · simp [durDays, daysInclusive, hlt]
    · have h2 := (daysInclusive_pos (by omega : s ≤ e)).2
      simp [durDays, hlt]
      omega

theorem durDays_some_eq {s e : Int} (h : ¬ e < s) :
    durDays (some s) (some e) = some (daysInclusive (some s) (some e)) := by
  simp only [durDays, if_neg h]
  rw [(daysInclusive_pos (by omega : s ≤ e)).1]

theorem findRental_replaceRental {rentals : List Rental} {rid : Nat} {r' : Rental}
    (h : r'.id = rid) (hfound : (findRental rentals rid).isSome) :
    findRental (replaceRental rentals rid r') rid = some r' := by
  induction rentals with
  | nil => simp [findRental] at hfound
  | cons r rest ih =>
    by_cases hr : (r.id == rid) = true
    · have hr' : (r'.id == rid) = true := by simp [h]
      show List.find? (fun x => x.id == rid)
          ((if (r.id == rid) = true then r' else r) ::
            rest.map (fun x => if x.id == rid then r' else x)) = some r'
      rw [if_pos hr]
      exact List.find?_cons_of_pos _ hr'
    · have hrf : (r.id == rid) = false := by simpa using hr
      have hfound' : (findRental rest rid).isSome := by
        have hstep : List.find? (fun x => x.id == rid) (r :: rest) =
            List.find? (fun x => x.id == rid) rest :=
          List.find?_cons_of_neg _ (by simp [hrf])
        unfold findRental at hfound ⊢
        rwa [hstep] at hfound
      show List.find? (fun x => x.id == rid)
          ((if (r.id == rid) = true then r' else r) ::
            rest.map (fun x => if x.id == rid then r' else x)) = some r'
      rw [if_neg (by simp [hrf])]
      have hstep2 : List.find? (fun x => x.id == rid)
          (r :: rest.map (fun x => if x.id == rid then r' else x)) =
          List.find? (fun x => x.id == rid)
            (rest.map (fun x => if x.id == rid then r' else x)) :=
        List.find?_cons_of_neg _ (by simp [hrf])
      rw [hstep2]
      exact ih hfound'

theorem sumCost_cons (r : Rental) (rs : List Rental) :
    sumCost (r :: rs) = r.total_cost_cents + sumCost rs := by
  have aux : ∀ (l : List Rental) (n : Nat),
      l.foldl (fun s x => s + x.total_cost_cents) n =
        n + l.foldl (fun s x => s + x.total_cost_cents) 0 := by
    intro l
    induction l with
    | nil => intro n; simp
    | cons x xs ih =>
      intro n
      simp only [List.foldl_cons]
      rw [ih (n + x.total_cost_cents), ih (0 + x.total_cost_cents)]
      omega
  simp only [sumCost, List.foldl_cons]
  rw [aux rs (0 + r.total_cost_cents)]
  omega

theorem sumCost_filter_partition (p : Rental → Bool) (rs : List Rental) :
    sumCost rs = sumCost (rs.filter p) + sumCost (rs.filter (fun r => ¬ p r)) := by
  induction rs with
  | nil => rfl
  | cons r rest ih =>
    by_cases hp : p r <;>
      simp [List.filter_cons, hp, sumCost_cons, ih] <;> omega

theorem filter_active_eq_self {rs : List Rental}
    (h : ∀ r ∈ rs, r.status ≠ .cancelled) :
    rs.filter (fun r => r.status == .ongoing || r.status == .returned) = rs := by
  apply List.filter_eq_self.mpr
  intro r hr
  have := h r hr
  cases hs : r.status <;> simp_all

theorem daysInclusive_eq_zero {sd ed : Option Int} (h : daysInclusive sd ed = 0) :
    sd = none ∨ ed = none ∨ ∃ s e, sd = some s ∧ ed = some e ∧ e < s := by
  match sd, ed with
  | none, _ => exact Or.inl rfl
  | some _, none => exact Or.inr (Or.inl rfl)
  | some s, some e =>
    refine Or.inr (Or.inr ⟨s, e, rfl, rfl, ?_⟩)
    by_contra hc
    have := (daysInclusive_pos (by omega : s ≤ e)).2
    omega

/-! The claims. -/

/-- C2: `daysInclusive` returns 0 whenever either input fails to parse as a
calendar date or the parsed end is strictly before the parsed start; returns
exactly 1 when start and end are the same valid date; and otherwise returns
`ceil((end − start) in days) + 1` floored at a minimum of 1. Purity and
determinism hold by construction: the model is a function of exactly its two
arguments. -/
theorem C2_daysInclusive_spec :
    (∀ ed, daysInclusive none ed = 0) ∧
    (∀ sd, daysInclusive sd none = 0) ∧
    (∀ s e : Int, e < s → daysInclusive (some s) (some e) = 0) ∧
    (∀ d : Int, daysInclusive (some d) (some d) = 1) ∧
    (∀ s e : Int, s ≤ e →
      daysInclusive (some s) (some e) =
        max 1 ((jsCeilDiv (e - s) msPerDay + 1).toNat)) := by
  refine ⟨fun ed => by cases ed <;> rfl, fun sd => by cases sd <;> rfl, ?_, ?_, ?_⟩
  · intro s e h
    simp only [daysInclusive, if_pos h]
  · intro d
    have h0 : jsCeilDiv 0 msPerDay = 0 := by
      simp [jsCeilDiv, Int.zero_fdiv]
    simp [daysInclusive, h0]
  · intro s e h
    simp only [daysInclusive, if_neg (by omega : ¬ e < s)]

theorem C2_daysInclusive_spec_witness :
    ((2 : Int) < 3 ∧ daysInclusive (some 3) (some 2) = 0) ∧
    ((0 : Int) ≤ 2 * msPerDay ∧
      daysInclusive (some 0) (some (2 * msPerDay)) =
        max 1 ((jsCeilDiv (2 * msPerDay - 0) msPerDay + 1).toNat)) :=
  ⟨⟨by norm_num, C2_daysInclusive_spec.2.2.1 3 2 (by norm_num)⟩,
   ⟨by simp [msPerDay],
    C2_daysInclusive_spec.2.2.2.2 0 (2 * msPerDay) (by simp [msPerDay])⟩⟩

/-- C1: a successful Create (all four fields present, car found and available,
nonzero inclusive day count) returns a rental whose total cost is the car's
daily rate times `inclusiveDays(start, end)` (exact in cents), with status
`ongoing`, and afterwards the referenced car's `available` flag is false — in
both backends. -/
theorem C1_create_success_spec :
    (∀ (st : VolState) (cid : Nat) (name : String) (sd ed : Option Int) (car : Car),
      findCar st.cars cid = some car →
      car.available = true →
      daysInclusive sd ed ≠ 0 →
      ∃ r,
        (volCreate st ⟨some cid, some name, some sd, some ed⟩).1 = .created r ∧
        r.total_cost_cents = car.daily_rate_cents * daysInclusive sd ed ∧
        r.status = .ongoing ∧
        findCar (volCreate st ⟨some cid, some name, some sd, some ed⟩).2.cars cid =
          some { car with available := false }) ∧
    (∀ (st : DurState) (cid : Nat) (name : String) (sd ed : Option Int) (car : Car),
      findCar st.cars cid = some car →
      car.available = true →
      daysInclusive sd ed ≠ 0 →
      ∃ r,
        (durCreate st ⟨some cid, some name, some sd, some ed⟩).1 = .created r ∧
        r.total_cost_cents = car.daily_rate_cents * daysInclusive sd ed ∧
        r.status = .ongoing ∧
        findCar (durCreate st ⟨some cid, some name, some sd, some ed⟩).2.cars cid =
          some { car with available := false }) := by
  constructor
  · intro st cid name sd ed car hcar hav hdays
    simp only [volCreate, hcar, hav]
    rw [if_neg (by simp), if_neg hdays]
    exact ⟨_, rfl, rfl, rfl, findCar_setAvail_self false hcar⟩
  · intro st cid name sd ed car hcar hav hdays
    obtain ⟨s, e, hs, he, hse⟩ := daysInclusive_ne_zero hdays
    subst hs he
    simp only [durCreate, hcar, hav]
    rw [if_neg (by simp), durDays_some_eq (by omega : ¬ e < s)]
    exact ⟨_, rfl, rfl, rfl, findCar_setAvail_self false hcar⟩

theorem C1_create_success_spec_witness :
    (findCar volInit.cars 1 =
        some { id := 1, make := "Toyota", carModel := "Corolla", year := 2020,
               daily_rate_cents := 3500, available := true } ∧
      ∃ r,
        (volCreate volInit ⟨some 1, some "Alice", some (some 0), some (some (2 * msPerDay))⟩).1 =
          .created r ∧
        r.total_cost_cents = 3500 * daysInclusive (some 0) (some (2 * msPerDay)) ∧
        r.status = .ongoing ∧
        findCar (volCreate volInit
            ⟨some 1, some "Alice", some (some 0), some (some (2 * msPerDay))⟩).2.cars 1 =
          some { id := 1, make := "Toyota", carModel := "Corolla", year := 2020,
                 daily_rate_cents := 3500, available := false }) ∧
    (findCar durInit.cars 1 =
        some { id := 1, make := "Toyota", carModel := "Corolla", year := 2020,
               daily_rate_cents := 3500, available := true } ∧
      ∃ r,
        (durCreate durInit ⟨some 1, some "Alice", some (some 0), some (some (2 * msPerDay))⟩).1 =
          .created r ∧
        r.total_cost_cents = 3500 * daysInclusive (some 0) (some (2 * msPerDay)) ∧
        r.status = .ongoing ∧
        findCar (durCreate durInit
            ⟨some 1, some "Alice", some (some 0), some (some (2 * msPerDay))⟩).2.cars 1 =
          some { id := 1, make := "Toyota", carModel := "Corolla", year := 2020,
                 daily_rate_cents := 3500, available := false }) :=
  ⟨⟨rfl, C1_create_success_spec.1 volInit 1 "Alice" (some 0) (some (2 * msPerDay))
      _ rfl rfl (by decide)⟩,
   ⟨rfl, C1_create_success_spec.2 durInit 1 "Alice" (some 0) (some (2 * msPerDay))
      _ rfl rfl (by decide)⟩⟩

/-- C3: a status-only Update on an existing rental sets the referenced car's
`available` flag to true exactly when the new status is `returned`; with
status `cancelled` the cars collection is untouched — in both backends. -/
theorem C3_update_status_availability :
    (∀ (st : VolState) (rid : Nat) (rental : Rental) (car : Car),
      findRental st.rentals rid = some rental →
      findCar st.cars rental.car_id = some car →
      findCar (volUpdate st rid ⟨some .returned, none⟩).2.cars rental.car_id =
        some { car with available := true }) ∧
    (∀ (st : VolState) (rid : Nat) (rental : Rental),
      findRental st.rentals rid = some rental →
      (volUpdate st rid ⟨some .cancelled, none⟩).2.cars = st.cars) ∧
    (∀ (st : DurState) (rid : Nat) (rental : Rental) (car : Car),
      findRental st.rentals rid = some rental →
      findCar st.cars rental.car_id = some car →
      findCar (durUpdate st rid ⟨some .returned, none⟩).2.cars rental.car_id =
        some { car with available := true }) ∧
    (∀ (st : DurState) (rid : Nat) (rental : Rental),
      findRental st.rentals rid = some rental →
      (durUpdate st rid ⟨some .cancelled, none⟩).2.cars = st.cars) := by
  refine ⟨?_, ?_, ?_, ?_⟩
  · intro st rid rental car hrent hcar
    simp only [volUpdate, hrent]
    rw [if_pos trivial]
    exact findCar_setAvail_self true hcar
  · intro st rid rental hrent
    simp only [volUpdate, hrent]
    rw [if_neg (by simp)]
  · intro st rid rental car hrent hcar
    simp only [durUpdate, hrent]
    rw [if_pos trivial]
    exact findCar_setAvail_self true hcar
  · intro st rid rental hrent
    simp only [durUpdate, hrent]
    rw [if_neg (by simp)]

theorem C3_update_status_availability_witness :
    (findRental (volCreate volInit
        ⟨some 1, some "Alice", some (some 0), some (some (2 * msPerDay))⟩).2.rentals 1).isSome ∧
    (∀ rental, findRental (volCreate volInit
        ⟨some 1, some "Alice", some (some 0), some (some (2 * msPerDay))⟩).2.rentals 1 =
          some rental →
      ∀ car, findCar (volCreate volInit
          ⟨some 1, some "Alice", some (some 0), some (some (2 * msPerDay))⟩).2.cars
            rental.car_id = some car →
      findCar (volUpdate (volCreate volInit
          ⟨some 1, some "Alice", some (some 0), some (some (2 * msPerDay))⟩).2 1
          ⟨some .returned, none⟩).2.cars rental.car_id =
        some { car with available := true }) :=
  ⟨by decide, fun rental hrent car hcar =>
    C3_update_status_availability.1 _ 1 rental car hrent hcar⟩

/-- C6 counterexample: from the seeded volatile state, create a rental for car
1 (status `ongoing`), mark it `returned`, then update it again with status
`cancelled` — the source stores the new status unconditionally, so the
supposedly terminal `returned` rental becomes `cancelled`, contradicting the
claim that no transition leaves `returned`. -/
theorem C6_terminal_status_counterexample :
    ((volRun volInit
        [.createRental ⟨some 1, some "Alice", some (some 0), some (some (2 * msPerDay))⟩,
         .updateRental 1 ⟨some .returned, none⟩]).2.rentals.map
      (fun r => (r.id, r.status)) = [(1, .returned)]) ∧
    ((volRun volInit
        [.createRental ⟨some 1, some "Alice", some (some 0), some (some (2 * msPerDay))⟩,
         .updateRental 1 ⟨some .returned, none⟩,
         .updateRental 1 ⟨some .cancelled, none⟩]).2.rentals.map
      (fun r => (r.id, r.status)) = [(1, .cancelled)]) := by
  decide

/-- C6 amended: Update stores any provided status unconditionally, whatever
the rental's current status; `returned` and `cancelled` are not terminal — a
status-only Update on such a rental changes its status to the given value (in
both backends). -/
theorem C6_update_overwrites_status :
    (∀ (st : VolState) (rid : Nat) (rental : Rental) (s : Status),
      findRental st.rentals rid = some rental →
      (volUpdate st rid ⟨some s, none⟩).1 =
        .updated { id := rid, status := s, end_date := rental.end_date,
                   total_cost_cents := rental.total_cost_cents } ∧
      findRental (volUpdate st rid ⟨some s, none⟩).2.rentals rid =
        some { rental with status := s, updated_at := st.seq }) ∧
    (∀ (st : DurState) (rid : Nat) (rental : Rental) (s : Status),
      findRental st.rentals rid = some rental →
      (durUpdate st rid ⟨some s, none⟩).1 =
        .updated { id := rid, status := s, end_date := rental.end_date,
                   total_cost_cents := rental.total_cost_cents } ∧
      findRental (durUpdate st rid ⟨some s, none⟩).2.rentals rid =
        some { rental with status := s, updated_at := st.seq }) := by
  constructor
  · intro st rid rental s hrent
    have hid : rental.id = rid := findRental_id hrent
    constructor
    · simp only [volUpdate, hrent, hid]
    · simp only [volUpdate, hrent]
      exact findRental_replaceRental hid (by simp [hrent])
  · intro st rid rental s hrent
    have hid : rental.id = rid := findRental_id hrent
    constructor
    · simp only [durUpdate, hrent]
    · simp only [durUpdate, hrent]
      exact findRental_replaceRental hid (by simp [hrent])

theorem C6_update_overwrites_status_witness :
    (findRental (volCreate volInit
        ⟨some 1, some "Alice", some (some 0), some (some (2 * msPerDay))⟩).2.rentals 1).isSome ∧
    (∀ rental, findRental (volCreate volInit
        ⟨some 1, some "Alice", some (some 0), some (some (2 * msPerDay))⟩).2.rentals 1 =
          some rental →
      (volUpdate (volCreate volInit
          ⟨some 1, some "Alice", some (some 0), some (some (2 * msPerDay))⟩).2 1
          ⟨some .cancelled, none⟩).1 =
        .updated { id := 1, status := .cancelled, end_date := rental.end_date,
                   total_cost_cents := rental.total_cost_cents }) :=
  ⟨by decide, fun rental hrent =>
    (C6_update_overwrites_status.1 _ 1 rental .cancelled hrent).1⟩

/-- C7: Create fails with exactly one error, decided in the source's guard
order: missing field → ValidationError; unknown car → NotFoundError;
unavailable car → ConflictError; zero inclusive day count → ValidationError
("invalid dates"). In particular an unavailable car with invalid dates yields
the ConflictError, not the ValidationError (part 3 places no constraint on
the dates). Both backends. -/
theorem C7_create_error_precedence :
    (∀ (v : VolState) (d : DurState) (req : CreateReq),
      (req.car_id = none ∨ req.renter_name = none ∨
        req.start_date = none ∨ req.end_date = none) →
      (volCreate v req).1 = .err .validationMissing ∧
      (durCreate d req).1 = .err .validationMissing) ∧
    (∀ (v : VolState) (d : DurState) (cid : Nat) (name : String) (sd ed : Option Int),
      findCar v.cars cid = none → findCar d.cars cid = none →
      (volCreate v ⟨some cid, some name, some sd, some ed⟩).1 = .err .carNotFound ∧
      (durCreate d ⟨some cid, some name, some sd, some ed⟩).1 = .err .carNotFound) ∧
    (∀ (v : VolState) (d : DurState) (cid : Nat) (name : String) (sd ed : Option Int)
        (car car' : Car),
      findCar v.cars cid = some car → car.available = false →
      findCar d.cars cid = some car' → car'.available = false →
      (volCreate v ⟨some cid, some name, some sd, some ed⟩).1 = .err .carUnavailable ∧
      (durCreate d ⟨some cid, some name, some sd, some ed⟩).1 = .err .carUnavailable) ∧
    (∀ (v : VolState) (d : DurState) (cid : Nat) (name : String) (sd ed : Option Int)
        (car car' : Car),
      findCar v.cars cid = some car → car.available = true →
      findCar d.cars cid = some car' → car'.available = true →
      daysInclusive sd ed = 0 →
      (volCreate v ⟨some cid, some name, some sd, some ed⟩).1 = .err .invalidDates ∧
      (durCreate d ⟨some cid, some name, some sd, some ed⟩).1 = .err .invalidDates) := by
  refine ⟨?_, ?_, ?_, ?_⟩
  · intro v d req hmiss
    obtain ⟨cid, name, sd, ed⟩ := req
    rcases cid with _ | cid <;> rcases name with _ | name <;>
      rcases sd with _ | sd <;> rcases ed with _ | ed <;>
      simp_all [volCreate, durCreate]
  · intro v d cid name sd ed hv hd
    exact ⟨by simp [volCreate, hv], by simp [durCreate, hd]⟩
  · intro v d cid name sd ed car car' hv hav hd hav'
    constructor
    · simp only [volCreate, hv]
      rw [if_pos (by simp [hav])]
    · simp only [durCreate, hd]
      rw [if_pos (by simp [hav'])]
  · intro v d cid name sd ed car car' hv hav hd hav' hdays
    constructor
    · simp only [volCreate, hv, hav]
      rw [if_neg (by simp), if_pos hdays]
    · simp only [durCreate, hd, hav']
      rw [if_neg (by simp), (durDays_eq_none_iff sd ed).mpr hdays]

theorem C7_create_error_precedence_witness :
    ((⟨none, some "A", some (some 0), some (some 0)⟩ : CreateReq).car_id = none ∧
      (volCreate volInit ⟨none, some "A", some (some 0), some (some 0)⟩).1 =
        .err .validationMissing ∧
      (durCreate durInit ⟨none, some "A", some (some 0), some (some 0)⟩).1 =
        .err .validationMissing) ∧
    (findCar volInit.cars 99 = none ∧
      (volCreate volInit ⟨some 99, some "A", some (some 0), some (some 0)⟩).1 =
        .err .carNotFound) ∧
    (∀ car, findCar (volCreate volInit
          ⟨some 1, some "A", some (some 0), some (some 0)⟩).2.cars 1 = some car →
      car.available = false →
      ∀ car', findCar (durCreate durInit
          ⟨some 1, some "A", some (some 0), some (some 0)⟩).2.cars 1 = some car' →
      car'.available = false →
      (volCreate (volCreate volInit
          ⟨some 1, some "A", some (some 0), some (some 0)⟩).2
          ⟨some 1, some "B", some (some (2 * msPerDay)), some (some 0)⟩).1 =
        .err .carUnavailable) ∧
    (∀ car, findCar volInit.cars 2 = some car → car.available = true →
      daysInclusive (some (2 * msPerDay)) (some 0) = 0 →
      (volCreate volInit ⟨some 2, some "B", some (some (2 * msPerDay)), some (some 0)⟩).1 =
        .err .invalidDates) := by
  refine ⟨⟨rfl, ?_⟩, ⟨by decide, ?_⟩, ?_, ?_⟩
  · exact (C7_create_error_precedence.1 volInit durInit _ (Or.inl rfl))
  · exact (C7_create_error_precedence.2.1 volInit durInit 99 "A" (some 0) (some 0)
      (by decide) (by decide)).1
  · intro car hcar hav car' hcar' hav'
    exact (C7_create_error_precedence.2.2.1 _ (durCreate durInit
      ⟨some 1, some "A", some (some 0), some (some 0)⟩).2 1 "B"
      (some (2 * msPerDay)) (some 0) car car' hcar hav hcar' hav').1
  · intro car hcar hav hdays
    exact (C7_create_error_precedence.2.2.2 volInit durInit 2 "B"
      (some (2 * msPerDay)) (some 0) car car hcar hav hcar hav hdays).1

/-- C8: Delete removes the rental record (all other rentals are kept) and
fails with NotFoundError exactly when no rental with that id exists; in every
case — success or failure, whatever the rental's status — the cars collection
is untouched. The removal shape is stated for id-duplicate-free states (the
only reachable ones); the volatile branch splices out the found element, the
durable branch deletes by id. -/
theorem C8_delete_frame :
    (∀ (st : VolState) (rid : Nat),
      (volDelete st rid).2.cars = st.cars ∧
      ((volDelete st rid).1 = .err .rentalNotFound ↔ findRental st.rentals rid = none) ∧
      ((st.rentals.map Rental.id).Nodup →
        (volDelete st rid).2.rentals = st.rentals.filter (fun r => !(r.id == rid)))) ∧
    (∀ (st : DurState) (rid : Nat),
      (durDelete st rid).2.cars = st.cars ∧
      ((durDelete st rid).1 = .err .rentalNotFound ↔ findRental st.rentals rid = none) ∧
      (durDelete st rid).2.rentals = st.rentals.filter (fun r => !(r.id == rid))) := by
  have hany : ∀ (rs : List Rental) (rid : Nat),
      rs.any (fun r => r.id == rid) = true ↔ findRental rs rid ≠ none := by
    intro rs rid
    rw [List.any_eq_true]
    rw [← Option.isSome_iff_ne_none, findRental, List.find?_isSome]
  have hfilter : ∀ (rs : List Rental) (rid : Nat),
      findRental rs rid = none → rs.filter (fun r => !(r.id == rid)) = rs := by
    intro rs rid hnone
    apply List.filter_eq_self.mpr
    intro r hr
    have := List.find?_eq_none.mp hnone r hr
    simpa using this
  constructor
  · intro st rid
    by_cases hc : st.rentals.any (fun r => r.id == rid) = true
    · have hne := (hany st.rentals rid).mp hc
      refine ⟨by simp [volDelete, hc], ?_, ?_⟩
      · simp only [volDelete, if_pos hc]
        constructor
        · intro h; exact absurd h (by simp)
        · intro h; exact absurd h hne
      · intro hnodup
        simp only [volDelete, if_pos hc]
        exact eraseP_eq_filter_of_nodup_ids hnodup
    · have hnone : findRental st.rentals rid = none := by
        by_contra hne
        exact hc ((hany st.rentals rid).mpr hne)
      refine ⟨by simp [volDelete, hc], ?_, ?_⟩
      · simp only [volDelete, if_neg hc]
        simp [hnone]
      · intro _
        simp only [volDelete, if_neg hc]
        exact (hfilter st.rentals rid hnone).symm
  · intro st rid
    by_cases hc : (st.rentals.filter (fun r => !(r.id == rid))).length =
        st.rentals.length
    · have hnone : findRental st.rentals rid = none := by
        have hall := (List.filter_length_eq_length.mp ?_ : ∀ r ∈ st.rentals, (!(r.id == rid)) = true)
        · apply List.find?_eq_none.mpr
          intro r hr
          simpa using hall r hr
        · exact hc
      refine ⟨by simp [durDelete, hc], ?_, ?_⟩
      · simp only [durDelete]
        rw [if_pos (by simpa using hc)]
        simp [hnone]
      · simp only [durDelete]
        rw [if_pos (by simpa using hc)]
        exact (hfilter st.rentals rid hnone).symm
    · have hne : findRental st.rentals rid ≠ none := by
        intro hnone
        exact hc (by rw [hfilter st.rentals rid hnone])
      refine ⟨by simp [durDelete, hc], ?_, ?_⟩
      · simp only [durDelete]
        rw [if_neg (by simpa using hc)]
        constructor
        · intro h; exact absurd h (by simp)
        · intro h; exact absurd h hne
      · simp only [durDelete]
        rw [if_neg (by simpa using hc)]

theorem C8_delete_frame_witness :
    (((volCreate volInit
        ⟨some 1, some "Alice", some (some 0), some (some 0)⟩).2.rentals.map Rental.id).Nodup ∧
      (volDelete (volCreate volInit
          ⟨some 1, some "Alice", some (some 0), some (some 0)⟩).2 1).2.cars =
        (volCreate volInit ⟨some 1, some "Alice", some (some 0), some (some 0)⟩).2.cars ∧
      (volDelete (volCreate volInit
          ⟨some 1, some "Alice", some (some 0), some (some 0)⟩).2 1).2.rentals =
        (volCreate volInit
          ⟨some 1, some "Alice", some (some 0), some (some 0)⟩).2.rentals.filter
          (fun r => !(r.id == 1))) :=
  ⟨by decide,
   (C8_delete_frame.1 _ 1).1,
   (C8_delete_frame.1 _ 1).2.2 (by decide)⟩

theorem volCreate_created_id {st : VolState} {req : CreateReq} {r : Rental}
    (h : (volCreate st req).1 = .created r) : r.id = nextVolId st.rentals := by
  obtain ⟨cid, name, sd, ed⟩ := req
  rcases cid with _ | cid <;> rcases name with _ | name <;>
    rcases sd with _ | sd <;> rcases ed with _ | ed <;>
    try simp [volCreate] at h
  rcases hfc : findCar st.cars cid with _ | car
  · simp [volCreate, hfc] at h
  · simp only [volCreate, hfc] at h
    by_cases hav : car.available = false
    · rw [if_pos hav] at h
      simp at h
    · rw [if_neg hav] at h
      by_cases hd : daysInclusive sd ed = 0
      · rw [if_pos hd] at h
        simp at h
      · rw [if_neg hd] at h
        simp only [OpResult.created.injEq] at h
        rw [← h]

theorem durCreate_created_id {st : DurState} {req : CreateReq} {r : Rental}
    (h : (durCreate st req).1 = .created r) : r.id = st.nextRentalId := by
  obtain ⟨cid, name, sd, ed⟩ := req
  rcases cid with _ | cid <;> rcases name with _ | name <;>
    rcases sd with _ | sd <;> rcases ed with _ | ed <;>
    try simp [durCreate] at h
  rcases hfc : findCar st.cars cid with _ | car
  · simp [durCreate, hfc] at h
  · simp only [durCreate, hfc] at h
    by_cases hav : car.available = false
    · rw [if_pos hav] at h
      simp at h
    · rw [if_neg hav] at h
      rcases hdd : durDays sd ed with _ | d
      · rw [hdd] at h
        simp at h
      · rw [hdd] at h
        simp only [OpResult.created.injEq] at h
        rw [← h]

/-- C9 counterexample: in the volatile backend, create a rental (id 1), delete
it, then create another for a different car: the allocator
`max(live ids) + 1 : 1` hands out id 1 again, so the new id is not strictly
greater than every previously allocated id — a deleted rental's id IS
reassigned. -/
theorem C9_id_reuse_counterexample :
    (volRun volInit
      [.createRental ⟨some 1, some "Alice", some (some 0), some (some 0)⟩,
       .deleteRental 1,
       .createRental ⟨some 2, some "Bob", some (some 0), some (some 0)⟩]).1.map
      (fun res => match res with | .created r => some r.id | _ => none) =
    [some 1, none, some 1] := by
  decide

/-- C9 amended: a successful createRental returns an id strictly greater than
the id of every rental currently in the store (so live ids stay unique), but
only monotonic with respect to LIVE rentals: the volatile allocator is
`max(live ids) + 1`, so after deleting the maximal rental an old id is
reassigned. The durable counter (`AUTO_INCREMENT`, here the explicit
`nextRentalId`) stays ahead of all live ids whenever it starts that way. -/
theorem C9_create_id_exceeds_live :
    (∀ (st : VolState) (req : CreateReq) (r : Rental),
      (volCreate st req).1 = .created r →
      ∀ x ∈ st.rentals, x.id < r.id) ∧
    (∀ (st : DurState) (req : CreateReq) (r : Rental),
      (∀ x ∈ st.rentals, x.id < st.nextRentalId) →
      (durCreate st req).1 = .created r →
      ∀ x ∈ st.rentals, x.id < r.id) := by
  constructor
  · intro st req r h x hx
    rw [volCreate_created_id h]
    exact lt_nextVolId hx
  · intro st req r hinv h x hx
    rw [durCreate_created_id h]
    exact hinv x hx

def c9afterFirst : VolState :=
  (volCreate volInit ⟨some 1, some "Alice", some (some 0), some (some 0)⟩).2

def c9secondReq : CreateReq := ⟨some 2, some "Bob", some (some 0), some (some 0)⟩

def c9secondRental : Rental :=
  { id := 2, car_id := 2, renter_name := "Bob", start_date := some 0,
    end_date := some 0, total_cost_cents := 3750, status := .ongoing,
    created_at := 1, updated_at := 1 }

theorem C9_create_id_exceeds_live_witness :
    (volCreate c9afterFirst c9secondReq).1 = .created c9secondRental ∧
    ∀ x ∈ c9afterFirst.rentals, x.id < c9secondRental.id :=
  ⟨by decide,
   C9_create_id_exceeds_live.1 c9afterFirst c9secondReq c9secondRental (by decide)⟩

theorem volCreate_err_frame {st : VolState} {req : CreateReq} {e : RErr}
    (h : (volCreate st req).1 = .err e) : (volCreate st req).2 = st := by
  obtain ⟨cid, name, sd, ed⟩ := req
  rcases cid with _ | cid <;> rcases name with _ | name <;>
    rcases sd with _ | sd <;> rcases ed with _ | ed <;>
    try rfl
  rcases hfc : findCar st.cars cid with _ | car
  · simp [volCreate, hfc]
  · simp only [volCreate, hfc] at h ⊢
    by_cases hav : car.available = false
    · rw [if_pos hav]
    · rw [if_neg hav] at h ⊢
      by_cases hd : daysInclusive sd ed = 0
      · rw [if_pos hd]
      · rw [if_neg hd] at h
        simp at h

theorem durCreate_err_frame {st : DurState} {req : CreateReq} {e : RErr}
    (h : (durCreate st req).1 = .err e) : (durCreate st req).2 = st := by
  obtain ⟨cid, name, sd, ed⟩ := req
  rcases cid with _ | cid <;> rcases name with _ | name <;>
    rcases sd with _ | sd <;> rcases ed with _ | ed <;>
    try rfl
  rcases hfc : findCar st.cars cid with _ | car
  · simp [durCreate, hfc]
  · simp only [durCreate, hfc] at h ⊢
    by_cases hav : car.available = false
    · rw [if_pos hav]
    · rw [if_neg hav] at h ⊢
      rcases hdd : durDays sd ed with _ | d
      · rfl
      · rw [hdd] at h
        simp at h

theorem volUpdate_err_frame {st : VolState} {rid : Nat} {req : UpdateReq} {e : RErr}
    (h : (volUpdate st rid req).1 = .err e) : (volUpdate st rid req).2 = st := by
  rcases hfr : findRental st.rentals rid with _ | rental
  · simp [volUpdate, hfr]
  · rcases hed : req.end_date with _ | ed
    · simp [volUpdate, hfr, hed] at h
    · simp only [volUpdate, hfr, hed] at h ⊢
      by_cases hd : daysInclusive rental.start_date ed = 0
      · simp [hd]
      · rcases hfc : findCar st.cars rental.car_id with _ | car
        · simp [hd, hfc]
        · simp [hd, hfc] at h

theorem durUpdate_err_frame {st : DurState} {rid : Nat} {req : UpdateReq} {e : RErr}
    (h : (durUpdate st rid req).1 = .err e) : (durUpdate st rid req).2 = st := by
  rcases hfr : findRental st.rentals rid with _ | rental
  · simp [durUpdate, hfr]
  · rcases hed : req.end_date with _ | ed
    · simp [durUpdate, hfr, hed] at h
    · simp only [durUpdate, hfr, hed] at h ⊢
      rcases ed with _ | e'
      · simp
      · rcases hsd : rental.start_date with _ | s
        · simp [hsd]
        · simp only [hsd] at h ⊢
          by_cases hlt : e' < s
          · simp [hlt]
          · rcases hfc : findCar st.cars rental.car_id with _ | car
            · simp [hlt, hfc]
            · simp [hlt, hfc] at h

/-- C10: every failing operation is atomic: whenever a step of either backend
returns an error (Create with a missing field, unknown car, unavailable car or
invalid dates; Update with an unknown rental or invalid end_date; Delete with
an unknown rental), the entire state — cars and rentals — is exactly the state
before the call. -/
theorem C10_failed_ops_atomic :
    (∀ (st : VolState) (op : Op) (e : RErr),
      (volStep st op).1 = .err e → (volStep st op).2 = st) ∧
    (∀ (st : DurState) (op : Op) (e : RErr),
      (durStep st op).1 = .err e → (durStep st op).2 = st) := by
  constructor
  · intro st op e h
    cases op with
    | listCars => rfl
    | listRentals => rfl
    | aggregate => rfl
    | createRental req => exact volCreate_err_frame h
    | updateRental rid req => exact volUpdate_err_frame h
    | deleteRental rid =>
      by_cases hc : st.rentals.any (fun r => r.id == rid) = true
      · simp [volStep, volDelete, hc] at h
      · simp [volStep, volDelete, hc]
  · intro st op e h
    cases op with
    | listCars => rfl
    | listRentals => rfl
    | aggregate => rfl
    | createRental req => exact durCreate_err_frame h
    | updateRental rid req => exact durUpdate_err_frame h
    | deleteRental rid =>
      by_cases hc : ((st.rentals.filter (fun r => !(r.id == rid))).length ==
          st.rentals.length) = true
      · simp [durStep, durDelete, hc]
      · simp [durStep, durDelete, hc] at h

theorem C10_failed_ops_atomic_witness :
    (volStep volInit (.createRental ⟨some 1, some "Alice", some (some 0), none⟩)).1 =
      .err .validationMissing ∧
    (volStep volInit (.createRental ⟨some 1, some "Alice", some (some 0), none⟩)).2 =
      volInit :=
  ⟨by decide,
   C10_failed_ops_atomic.1 volInit
     (.createRental ⟨some 1, some "Alice", some (some 0), none⟩)
     .validationMissing (by decide)⟩

/-- C4 counterexample: reachable volatile state with one cancelled rental
(cost 105.00). The in-memory `updateMetrics` reduces `total_cost` over ALL
rentals with no status filter, so revenue is 10500 cents, while the sum over
just the `ongoing`/`returned` rentals is 0 — the claim that revenue equals the
ongoing/returned sum in every state of either backend is false for the
volatile backend. -/
theorem C4_vol_revenue_counterexample :
    (volAggregate (volRun volInit
      [.createRental ⟨some 1, some "Alice", some (some 0), some (some (2 * msPerDay))⟩,
       .updateRental 1 ⟨some .cancelled, none⟩]).2).revenue_cents = 10500 ∧
    sumCost ((volRun volInit
      [.createRental ⟨some 1, some "Alice", some (some 0), some (some (2 * msPerDay))⟩,
       .updateRental 1 ⟨some .cancelled, none⟩]).2.rentals.filter
      (fun r => r.status == .ongoing || r.status == .returned)) = 0 ∧
    (10500 : Nat) ≠ 0 := by
  refine ⟨by decide, by decide, by decide⟩

/-- C4 amended: only the durable metrics revenue sums `total_cost` over
exactly the `ongoing` and `returned` rentals; the volatile metrics revenue
sums over all rentals — it equals the ongoing/returned sum PLUS the sum over
cancelled rentals, so a cancelled rental contributes its `total_cost` to the
volatile revenue (and nothing to the durable one). -/
theorem C4_aggregate_revenue :
    (∀ d : DurState, (durAggregate d).revenue_cents =
      sumCost (d.rentals.filter
        (fun r => r.status == .ongoing || r.status == .returned))) ∧
    (∀ v : VolState, (volAggregate v).revenue_cents =
      sumCost (v.rentals.filter
        (fun r => r.status == .ongoing || r.status == .returned)) +
      sumCost (v.rentals.filter (fun r => r.status == .cancelled))) := by
  constructor
  · intro d
    rfl
  · intro v
    have h := sumCost_filter_partition
      (fun r => r.status == .ongoing || r.status == .returned) v.rentals
    have hneg : v.rentals.filter
        (fun r => ¬ (r.status == .ongoing || r.status == .returned)) =
        v.rentals.filter (fun r => r.status == .cancelled) := by
      apply List.filter_congr
      intro r _
      cases r.status <;> simp
    rw [hneg] at h
    exact h

/-- Operation filter for the amended backend equivalence: no `deleteRental`
(the volatile allocator `max(live ids) + 1` diverges from `AUTO_INCREMENT`
after deleting the maximal rental) and no update that sets status `cancelled`
(the two revenue computations diverge on cancelled rentals). -/
def Op.allowedB : Op → Bool
  | .deleteRental _ => false
  | .updateRental _ req => !(req.status == some .cancelled)
  | _ => true

/-- Invariant of volatile states reachable without deletes or cancellations:
every rental references an existing car, stores a parseable start date, is not
cancelled, and the car rows are in strictly increasing id order. -/
structure GoodVol (v : VolState) : Prop where
  rentCar : ∀ r ∈ v.rentals, (findCar v.cars r.car_id).isSome
  rentStart : ∀ r ∈ v.rentals, r.start_date.isSome
  rentStatus : ∀ r ∈ v.rentals, r.status ≠ .cancelled
  carsSorted : List.Chain' (· < ·) (v.cars.map Car.id)

/-- Simulation relation between the two backends: equal tables and clock, the
durable id counter agrees with the volatile allocator, and the shared state is
well-formed. -/
structure Rel (v : VolState) (d : DurState) : Prop where
  cars_eq : v.cars = d.cars
  rentals_eq : v.rentals = d.rentals
  seq_eq : v.seq = d.seq
  nid : d.nextRentalId = nextVolId v.rentals
  good : GoodVol v

theorem sortById_eq_self {l : List Car} (h : List.Chain' (· < ·) (l.map Car.id)) :
    sortById l = l := by
  induction l with
  | nil => rfl
  | cons c rest ih =>
    have hrest : List.Chain' (· < ·) (rest.map Car.id) := by
      simp only [List.map_cons] at h
      exact h.tail
    show insertById c (sortById rest) = c :: rest
    rw [ih hrest]
    cases rest with
    | nil => rfl
    | cons d rest2 =>
      have hcd : c.id < d.id := by
        simp only [List.map_cons, List.chain'_cons] at h
        exact h.1
      show (if d.id < c.id then d :: insertById c rest2 else c :: d :: rest2) =
        c :: d :: rest2
      rw [if_neg (by omega)]

theorem join_map_filterMap (cars : List Car) (rs : List Rental)
    (h : ∀ r ∈ rs, (findCar cars r.car_id).isSome) :
    rs.map (fun r =>
      match findCar cars r.car_id with
      | some c => joinWith r c
      | none => { rental := r, make := none, carModel := none,
                  year := none, daily_rate_cents := none }) =
    rs.filterMap (fun r => (findCar cars r.car_id).map (joinWith r)) := by
  induction rs with
  | nil => rfl
  | cons r rest ih =>
    have hr := h r (List.mem_cons_self r rest)
    rcases hfc : findCar cars r.car_id with _ | c
    · rw [hfc] at hr
      simp at hr
    · simp only [List.map_cons, List.filterMap_cons, hfc, Option.map_some]
      rw [ih (fun x hx => h x (List.mem_cons_of_mem _ hx))]
      rfl

theorem goodVol_setAvail {vcars : List Car} {vrents : List Rental} {vseq : Nat}
    (hgood : GoodVol ⟨vcars, vrents, vseq⟩) (cid : Nat) (b : Bool) (vseq' : Nat) :
    GoodVol ⟨setAvail vcars cid b, vrents, vseq'⟩ := by
  refine ⟨?_, hgood.rentStart, hgood.rentStatus, ?_⟩
  · intro r hr
    show (findCar (setAvail vcars cid b) r.car_id).isSome = true
    rw [findCar_setAvail_isSome]
    exact hgood.rentCar r hr
  · show List.Chain' (· < ·) ((setAvail vcars cid b).map Car.id)
    rw [setAvail_map_id]
    exact hgood.carsSorted

/-- Equivalence of the two Create branches on related states. -/
theorem createEquiv (vcars : List Car) (vrents : List Rental) (vseq : Nat)
    (hgood : GoodVol ⟨vcars, vrents, vseq⟩) (req : CreateReq) :
    (volCreate ⟨vcars, vrents, vseq⟩ req).1 =
      (durCreate ⟨vcars, vrents, nextVolId vrents, vseq⟩ req).1 ∧
    Rel (volCreate ⟨vcars, vrents, vseq⟩ req).2
      (durCreate ⟨vcars, vrents, nextVolId vrents, vseq⟩ req).2 := by
  obtain ⟨cid?, name?, sd?, ed?⟩ := req
  rcases cid? with _ | cid
  · exact ⟨rfl, ⟨rfl, rfl, rfl, rfl, hgood⟩⟩
  rcases name? with _ | name
  · exact ⟨rfl, ⟨rfl, rfl, rfl, rfl, hgood⟩⟩
  rcases sd? with _ | sd
  · exact ⟨rfl, ⟨rfl, rfl, rfl, rfl, hgood⟩⟩
  rcases ed? with _ | ed
  · exact ⟨rfl, ⟨rfl, rfl, rfl, rfl, hgood⟩⟩
  rcases hfc : findCar vcars cid with _ | car
  · constructor
    · show (volCreate _ _).1 = (durCreate _ _).1
      simp [volCreate, durCreate, hfc]
    · have h1 : (volCreate ⟨vcars, vrents, vseq⟩
          ⟨some cid, some name, some sd, some ed⟩).2 = ⟨vcars, vrents, vseq⟩ := by
        simp [volCreate, hfc]
      have h2 : (durCreate ⟨vcars, vrents, nextVolId vrents, vseq⟩
          ⟨some cid, some name, some sd, some ed⟩).2 =
          ⟨vcars, vrents, nextVolId vrents, vseq⟩ := by
        simp [durCreate, hfc]
      rw [h1, h2]
      exact ⟨rfl, rfl, rfl, rfl, hgood⟩
  by_cases hav : car.available = false
  · constructor
    · show (volCreate _ _).1 = (durCreate _ _).1
      simp [volCreate, durCreate, hfc, hav]
    · have h1 : (volCreate ⟨vcars, vrents, vseq⟩
          ⟨some cid, some name, some sd, some ed⟩).2 = ⟨vcars, vrents, vseq⟩ := by
        simp [volCreate, hfc, hav]
      have h2 : (durCreate ⟨vcars, vrents, nextVolId vrents, vseq⟩
          ⟨some cid, some name, some sd, some ed⟩).2 =
          ⟨vcars, vrents, nextVolId vrents, vseq⟩ := by
        simp [durCreate, hfc, hav]
      rw [h1, h2]
      exact ⟨rfl, rfl, rfl, rfl, hgood⟩
  by_cases hdd : daysInclusive sd ed = 0
  · have hdn : durDays sd ed = none := (durDays_eq_none_iff sd ed).mpr hdd
    constructor
    · show (volCreate _ _).1 = (durCreate _ _).1
      simp [volCreate, durCreate, hfc, hav, hdd, hdn]
    · have h1 : (volCreate ⟨vcars, vrents, vseq⟩
          ⟨some cid, some name, some sd, some ed⟩).2 = ⟨vcars, vrents, vseq⟩ := by
        simp [volCreate, hfc, hav, hdd]
      have h2 : (durCreate ⟨vcars, vrents, nextVolId vrents, vseq⟩
          ⟨some cid, some name, some sd, some ed⟩).2 =
          ⟨vcars, vrents, nextVolId vrents, vseq⟩ := by
        simp [durCreate, hfc, hav, hdn]
      rw [h1, h2]
      exact ⟨rfl, rfl, rfl, rfl, hgood⟩
  · obtain ⟨s, e, hs', he', hse⟩ := daysInclusive_ne_zero hdd
    subst hs' he'
    have hds : durDays (some s) (some e) =
        some (daysInclusive (some s) (some e)) := durDays_some_eq (by omega)
    have h1 : volCreate ⟨vcars, vrents, vseq⟩
        ⟨some cid, some name, some (some s), some (some e)⟩ =
        (.created
          { id := nextVolId vrents, car_id := cid, renter_name := name,
            start_date := some s, end_date := some e,
            total_cost_cents :=
              car.daily_rate_cents * daysInclusive (some s) (some e),
            status := .ongoing, created_at := vseq, updated_at := vseq },
         { cars := setAvail vcars cid false,
           rentals := vrents ++
             [{ id := nextVolId vrents, car_id := cid, renter_name := name,
                start_date := some s, end_date := some e,
                total_cost_cents :=
                  car.daily_rate_cents * daysInclusive (some s) (some e),
                status := .ongoing, created_at := vseq, updated_at := vseq }],
           seq := vseq + 1 }) := by
      simp only [volCreate, hfc]
      rw [if_neg hav, if_neg hdd]
    have h2 : durCreate ⟨vcars, vrents, nextVolId vrents, vseq⟩
        ⟨some cid, some name, some (some s), some (some e)⟩ =
        (.created
          { id := nextVolId vrents, car_id := cid, renter_name := name,
            start_date := some s, end_date := some e,
            total_cost_cents :=
              car.daily_rate_cents * daysInclusive (some s) (some e),
            status := .ongoing, created_at := vseq, updated_at := vseq },
         { cars := setAvail vcars cid false,
           rentals := vrents ++
             [{ id := nextVolId vrents, car_id := cid, renter_name := name,
                start_date := some s, end_date := some e,
                total_cost_cents :=
                  car.daily_rate_cents * daysInclusive (some s) (some e),
                status := .ongoing, created_at := vseq, updated_at := vseq }],
           nextRentalId := nextVolId vrents + 1, seq := vseq + 1 }) := by
      simp only [durCreate, hfc]
      rw [if_neg hav, hds]
    rw [h1, h2]
    refine ⟨rfl, rfl, rfl, rfl, ?_, ?_⟩
    · refine (nextVolId_append_next vrents _ ?_).symm
      rfl
    · refine ⟨?_, ?_, ?_, ?_⟩
      · intro r hr
        show (findCar (setAvail vcars cid false) r.car_id).isSome = true
        rw [findCar_setAvail_isSome]
        rcases List.mem_append.mp hr with hmem | hmem
        · exact hgood.rentCar r hmem
        · have : r.car_id = cid := by
            rcases List.mem_singleton.mp hmem with rfl
            rfl
          rw [this, hfc]
          rfl
      · intro r hr
        rcases List.mem_append.mp hr with hmem | hmem
        · exact hgood.rentStart r hmem
        · rcases List.mem_singleton.mp hmem with rfl
          rfl
      · intro r hr
        rcases List.mem_append.mp hr with hmem | hmem
        · exact hgood.rentStatus r hmem
        · rcases List.mem_singleton.mp hmem with rfl
          simp
      · show List.Chain' (· < ·) ((setAvail vcars cid false).map Car.id)
        rw [setAvail_map_id]
        exact hgood.carsSorted

theorem replaceRental_cases {vrents : List Rental} {rid : Nat} {r3 : Rental} :
    ∀ r ∈ replaceRental vrents rid r3, r = r3 ∨ r ∈ vrents := by
  intro r hr
  rcases List.mem_map.mp hr with ⟨x, hx, hfx⟩
  by_cases hxid : (x.id == rid) = true
  · left
    rw [← hfx, if_pos hxid]
  · right
    rw [← hfx, if_neg hxid]
    exact hx

theorem goodVol_replace {vcars : List Car} {vrents : List Rental} {vseq : Nat}
    (hgood : GoodVol ⟨vcars, vrents, vseq⟩)
    {cars2 : List Car}
    (hiso : ∀ x, (findCar cars2 x).isSome = (findCar vcars x).isSome)
    (hmap : cars2.map Car.id = vcars.map Car.id)
    {rid : Nat} {r3 : Rental}
    (hcar3 : (findCar vcars r3.car_id).isSome)
    (hsd3 : r3.start_date.isSome) (hst3 : r3.status ≠ .cancelled)
    (vseq' : Nat) :
    GoodVol ⟨cars2, replaceRental vrents rid r3, vseq'⟩ := by
  refine ⟨?_, ?_, ?_, ?_⟩
  · intro r hr
    show (findCar cars2 r.car_id).isSome = true
    rw [hiso]
    rcases replaceRental_cases r hr with rfl | hmem
    · exact hcar3
    · exact hgood.rentCar r hmem
  · intro r hr
    rcases replaceRental_cases r hr with rfl | hmem
    · exact hsd3
    · exact hgood.rentStart r hmem
  · intro r hr
    rcases replaceRental_cases r hr with rfl | hmem
    · exact hst3
    · exact hgood.rentStatus r hmem
  · show List.Chain' (· < ·) (cars2.map Car.id)
    rw [hmap]
    exact hgood.carsSorted

theorem nextVolId_replace {vrents : List Rental} {rid : Nat} {r3 : Rental}
    (h : r3.id = rid) :
    nextVolId (replaceRental vrents rid r3) = nextVolId vrents :=
  nextVolId_congr (replaceRental_map_id h)

/-- Equivalence of the two Update branches on related states, for updates that
do not set status `cancelled`. -/
theorem updateEquiv (vcars : List Car) (vrents : List Rental) (vseq : Nat)
    (hgood : GoodVol ⟨vcars, vrents, vseq⟩) (rid : Nat) (req : UpdateReq)
    (hnc : req.status ≠ some .cancelled) :
    (volUpdate ⟨vcars, vrents, vseq⟩ rid req).1 =
      (durUpdate ⟨vcars, vrents, nextVolId vrents, vseq⟩ rid req).1 ∧
    Rel (volUpdate ⟨vcars, vrents, vseq⟩ rid req).2
      (durUpdate ⟨vcars, vrents, nextVolId vrents, vseq⟩ rid req).2 := by
  obtain ⟨st?, ed?⟩ := req
  rcases hfr : findRental vrents rid with _ | rental
  · have h1 : volUpdate ⟨vcars, vrents, vseq⟩ rid ⟨st?, ed?⟩ =
        (.err .rentalNotFound, ⟨vcars, vrents, vseq⟩) := by
      simp only [volUpdate, hfr]
    have h2 : durUpdate ⟨vcars, vrents, nextVolId vrents, vseq⟩ rid ⟨st?, ed?⟩ =
        (.err .rentalNotFound, ⟨vcars, vrents, nextVolId vrents, vseq⟩) := by
      simp only [durUpdate, hfr]
    rw [h1, h2]
    exact ⟨rfl, ⟨rfl, rfl, rfl, rfl, hgood⟩⟩
  have hid : rental.id = rid := findRental_id hfr
  have hmem : rental ∈ vrents := findRental_mem hfr
  obtain ⟨car, hcar⟩ : ∃ car, findCar vcars rental.car_id = some car := by
    have := hgood.rentCar rental hmem
    exact Option.isSome_iff_exists.mp this
  rcases ed? with _ | ed
  · -- no end_date update
    rcases st? with _ | sNew
    · -- neither field: only updated_at is restamped
      have h1 : volUpdate ⟨vcars, vrents, vseq⟩ rid ⟨none, none⟩ =
          (.updated { id := rental.id, status := rental.status,
                      end_date := rental.end_date,
                      total_cost_cents := rental.total_cost_cents },
           { cars := vcars,
             rentals := replaceRental vrents rid { rental with updated_at := vseq },
             seq := vseq + 1 }) := by
        simp only [volUpdate, hfr]
        rw [if_neg (by simp)]
      have h2 : durUpdate ⟨vcars, vrents, nextVolId vrents, vseq⟩ rid ⟨none, none⟩ =
          (.updated { id := rid, status := rental.status,
                      end_date := rental.end_date,
                      total_cost_cents := rental.total_cost_cents },
           { cars := vcars,
             rentals := replaceRental vrents rid { rental with updated_at := vseq },
             nextRentalId := nextVolId vrents,
             seq := vseq + 1 }) := by
        simp only [durUpdate, hfr]
        rw [if_neg (by simp)]
      rw [h1, h2]
      refine ⟨by rw [hid], rfl, rfl, rfl, ?_, ?_⟩
      · refine (nextVolId_replace ?_).symm
        exact hid
      · apply goodVol_replace hgood (fun x => rfl) rfl
        · exact hgood.rentCar rental hmem
        · exact hgood.rentStart rental hmem
        · exact hgood.rentStatus rental hmem
    · -- status only
      have hne : sNew ≠ .cancelled := by
        intro hcc
        exact hnc (by rw [hcc])
      have h1 : volUpdate ⟨vcars, vrents, vseq⟩ rid ⟨some sNew, none⟩ =
          (.updated { id := rental.id, status := sNew,
                      end_date := rental.end_date,
                      total_cost_cents := rental.total_cost_cents },
           { cars := if (some sNew : Option Status) = some .returned
               then setAvail vcars rental.car_id true else vcars,
             rentals := replaceRental vrents rid
               { rental with status := sNew, updated_at := vseq },
             seq := vseq + 1 }) := by
        simp only [volUpdate, hfr]
      have h2 : durUpdate ⟨vcars, vrents, nextVolId vrents, vseq⟩ rid ⟨some sNew, none⟩ =
          (.updated { id := rid, status := sNew,
                      end_date := rental.end_date,
                      total_cost_cents := rental.total_cost_cents },
           { cars := if (some sNew : Option Status) = some .returned
               then setAvail vcars rental.car_id true else vcars,
             rentals := replaceRental vrents rid
               { rental with status := sNew, updated_at := vseq },
             nextRentalId := nextVolId vrents,
             seq := vseq + 1 }) := by
        simp only [durUpdate, hfr]
      rw [h1, h2]
      refine ⟨by rw [hid], rfl, rfl, rfl, ?_, ?_⟩
      · refine (nextVolId_replace ?_).symm
        exact hid
      · by_cases hret : (some sNew : Option Status) = some .returned
        · rw [if_pos hret]
          apply goodVol_replace hgood
            (fun x => findCar_setAvail_isSome vcars rental.car_id x true)
            (setAvail_map_id vcars rental.car_id true)
          · exact hgood.rentCar rental hmem
          · exact hgood.rentStart rental hmem
          · exact hne
        · rw [if_neg hret]
          apply goodVol_replace hgood (fun x => rfl) rfl
          · exact hgood.rentCar rental hmem
          · exact hgood.rentStart rental hmem
          · exact hne
  · -- end_date present
    by_cases hdd : daysInclusive rental.start_date ed = 0
    · -- invalid end_date: both fail, states unchanged
      obtain ⟨s, hstart⟩ : ∃ s, rental.start_date = some s :=
        Option.isSome_iff_exists.mp (hgood.rentStart rental hmem)
      have h1 : volUpdate ⟨vcars, vrents, vseq⟩ rid ⟨st?, some ed⟩ =
          (.err .invalidEndDate, ⟨vcars, vrents, vseq⟩) := by
        simp only [volUpdate, hfr]
        rw [if_pos hdd]
      have h2 : durUpdate ⟨vcars, vrents, nextVolId vrents, vseq⟩ rid ⟨st?, some ed⟩ =
          (.err .invalidEndDate, ⟨vcars, vrents, nextVolId vrents, vseq⟩) := by
        rcases ed with _ | e
        · simp only [durUpdate, hfr]
        · have hlt : e < s := by
            by_contra hge
            rw [hstart] at hdd
            have := (daysInclusive_pos (by omega : s ≤ e)).2
            omega
          simp only [durUpdate, hfr, hstart]
          rw [if_pos hlt]
      rw [h1, h2]
      exact ⟨rfl, ⟨rfl, rfl, rfl, rfl, hgood⟩⟩
    · -- valid end_date: recompute cost, then apply status
      obtain ⟨s, e, hstart, hee, hse⟩ := daysInclusive_ne_zero hdd
      subst hee
      have hdays2 : (jsCeilDiv (e - s) msPerDay + 1).toNat =
          daysInclusive rental.start_date (some e) := by
        rw [hstart]
        exact ((daysInclusive_pos hse).1).symm
      rcases st? with _ | sNew
      · have h1 : volUpdate ⟨vcars, vrents, vseq⟩ rid ⟨none, some (some e)⟩ =
            (.updated { id := rental.id, status := rental.status,
                        end_date := some e,
                        total_cost_cents := car.daily_rate_cents *
                          daysInclusive rental.start_date (some e) },
             { cars := vcars,
               rentals := replaceRental vrents rid
                 { rental with end_date := some e,
                               total_cost_cents := car.daily_rate_cents *
                                 daysInclusive rental.start_date (some e),
                               updated_at := vseq },
               seq := vseq + 1 }) := by
          simp only [volUpdate, hfr]
          rw [if_neg hdd, hcar]
          rw [if_neg (by simp)]
        have h2 : durUpdate ⟨vcars, vrents, nextVolId vrents, vseq⟩ rid ⟨none, some (some e)⟩ =
            (.updated { id := rid, status := rental.status,
                        end_date := some e,
                        total_cost_cents := car.daily_rate_cents *
                          daysInclusive rental.start_date (some e) },
             { cars := vcars,
               rentals := replaceRental vrents rid
                 { rental with end_date := some e,
                               total_cost_cents := car.daily_rate_cents *
                                 daysInclusive rental.start_date (some e),
                               updated_at := vseq },
               nextRentalId := nextVolId vrents,
               seq := vseq + 1 }) := by
          simp only [durUpdate, hfr, hstart]
          rw [if_neg (by omega : ¬ e < s), hcar, hdays2, hstart]
          rw [if_neg (by simp)]
        rw [h1, h2]
        refine ⟨by rw [hid], rfl, rfl, rfl, ?_, ?_⟩
        · refine (nextVolId_replace ?_).symm
          exact hid
        · apply goodVol_replace hgood (fun x => rfl) rfl
          · exact hgood.rentCar rental hmem
          · exact hgood.rentStart rental hmem
          · exact hgood.rentStatus rental hmem
      · have hne : sNew ≠ .cancelled := by
          intro hcc
          exact hnc (by rw [hcc])
        have h1 : volUpdate ⟨vcars, vrents, vseq⟩ rid ⟨some sNew, some (some e)⟩ =
            (.updated { id := rental.id, status := sNew,
                        end_date := some e,
                        total_cost_cents := car.daily_rate_cents *
                          daysInclusive rental.start_date (some e) },
             { cars := if (some sNew : Option Status) = some .returned
                 then setAvail vcars rental.car_id true else vcars,
               rentals := replaceRental vrents rid
                 { rental with end_date := some e,
                               total_cost_cents := car.daily_rate_cents *
                                 daysInclusive rental.start_date (some e),
                               status := sNew, updated_at := vseq },
               seq := vseq + 1 }) := by
          simp only [volUpdate, hfr]
          rw [if_neg hdd, hcar]
        have h2 : durUpdate ⟨vcars, vrents, nextVolId vrents, vseq⟩ rid
            ⟨some sNew, some (some e)⟩ =
            (.updated { id := rid, status := sNew,
                        end_date := some e,
                        total_cost_cents := car.daily_rate_cents *
                          daysInclusive rental.start_date (some e) },
             { cars := if (some sNew : Option Status) = some .returned
                 then setAvail vcars rental.car_id true else vcars,
               rentals := replaceRental vrents rid
                 { rental with end_date := some e,
                               total_cost_cents := car.daily_rate_cents *
                                 daysInclusive rental.start_date (some e),
                               status := sNew, updated_at := vseq },
               nextRentalId := nextVolId vrents,
               seq := vseq + 1 }) := by
          simp only [durUpdate, hfr, hstart]
          rw [if_neg (by omega : ¬ e < s), hcar, hdays2, hstart]
        rw [h1, h2]
        refine ⟨by rw [hid], rfl, rfl, rfl, ?_, ?_⟩
        · refine (nextVolId_replace ?_).symm
          exact hid
        · by_cases hret : (some sNew : Option Status) = some .returned
          · rw [if_pos hret]
            apply goodVol_replace hgood
              (fun x => findCar_setAvail_isSome vcars rental.car_id x true)
              (setAvail_map_id vcars rental.car_id true)
            · exact hgood.rentCar rental hmem
            · exact hgood.rentStart rental hmem
            · exact hne
          · rw [if_neg hret]
            apply goodVol_replace hgood (fun x => rfl) rfl
            · exact hgood.rentCar rental hmem
            · exact hgood.rentStart rental hmem
            · exact hne

/-- One allowed operation preserves the simulation relation and produces the
same observable result on both backends. -/
theorem stepEquiv {v : VolState} {d : DurState} (hrel : Rel v d) (op : Op)
    (hallow : op.allowedB = true) :
    (volStep v op).1 = (durStep d op).1 ∧
      Rel (volStep v op).2 (durStep d op).2 := by
  obtain ⟨vcars, vrents, vseq⟩ := v
  obtain ⟨dcars, drents, dnext, dseq⟩ := d
  obtain ⟨hc, hr, hs, hn, hgood⟩ := hrel
  simp only at hc hr hs hn
  subst hc hr hs hn
  cases op with
  | listCars =>
    refine ⟨?_, ⟨rfl, rfl, rfl, rfl, hgood⟩⟩
    show OpResult.cars vcars = OpResult.cars (sortById vcars)
    rw [sortById_eq_self hgood.carsSorted]
  | listRentals =>
    refine ⟨?_, ⟨rfl, rfl, rfl, rfl, hgood⟩⟩
    show OpResult.rentals (sortByCreatedDesc (volJoin ⟨vcars, vrents, vseq⟩)) =
      OpResult.rentals (sortByCreatedDesc (durJoin ⟨vcars, vrents, nextVolId vrents, vseq⟩))
    rw [show volJoin ⟨vcars, vrents, vseq⟩ =
        durJoin ⟨vcars, vrents, nextVolId vrents, vseq⟩ from
      join_map_filterMap vcars vrents hgood.rentCar]
  | aggregate =>
    refine ⟨?_, ⟨rfl, rfl, rfl, rfl, hgood⟩⟩
    show OpResult.agg (volAggregate ⟨vcars, vrents, vseq⟩) =
      OpResult.agg (durAggregate ⟨vcars, vrents, nextVolId vrents, vseq⟩)
    unfold volAggregate durAggregate
    simp only
    rw [filter_active_eq_self hgood.rentStatus]
  | deleteRental rid => simp [Op.allowedB] at hallow
  | createRental req => exact createEquiv vcars vrents vseq hgood req
  | updateRental rid req =>
    have hnc : req.status ≠ some .cancelled := by
      simp only [Op.allowedB, Bool.not_eq_eq_eq_not, Bool.not_true,
        beq_eq_false_iff_ne, ne_eq] at hallow
      exact hallow
    exact updateEquiv vcars vrents vseq hgood rid req hnc

/-- Any allowed operation sequence preserves the relation and yields equal
result traces. -/
theorem runEquiv {v : VolState} {d : DurState} (hrel : Rel v d) (ops : List Op)
    (hallow : ∀ op ∈ ops, op.allowedB = true) :
    (volRun v ops).1 = (durRun d ops).1 ∧
      Rel (volRun v ops).2 (durRun d ops).2 := by
  induction ops generalizing v d with
  | nil => exact ⟨rfl, hrel⟩
  | cons op ops ih =>
    have h1 := stepEquiv hrel op (hallow op (List.mem_cons_self _ _))
    have h2 := ih h1.2 (fun o ho => hallow o (List.mem_cons_of_mem _ ho))
    constructor
    · show (volStep v op).1 :: (volRun (volStep v op).2 ops).1 =
        (durStep d op).1 :: (durRun (durStep d op).2 ops).1
      rw [h1.1, h2.1]
    · exact h2.2

/-- The seeded initial states are related. -/
theorem relInit : Rel volInit durInit := by
  refine ⟨rfl, rfl, rfl, rfl, ?_, ?_, ?_, ?_⟩
  · intro r hr
    exact absurd hr (List.not_mem_nil r)
  · intro r hr
    exact absurd hr (List.not_mem_nil r)
  · intro r hr
    exact absurd hr (List.not_mem_nil r)
  · show List.Chain' (· < ·) (seedCars.map Car.id)
    simp [seedCars, List.chain'_cons]

/-- C5 counterexample: the same three-operation sequence — create a rental for
car 1, cancel it, read the metrics — yields different result traces on the two
backends: the volatile aggregate reports revenue 10500 cents while the durable
aggregate reports 0, because only the SQL branch filters out cancelled
rentals. The backends are therefore NOT observably equivalent on all
operation sequences. -/
theorem C5_backend_divergence_counterexample :
    (volRun volInit
      [.createRental ⟨some 1, some "Alice", some (some 0), some (some (2 * msPerDay))⟩,
       .updateRental 1 ⟨some .cancelled, none⟩, .aggregate]).1 ≠
    (durRun durInit
      [.createRental ⟨some 1, some "Alice", some (some 0), some (some (2 * msPerDay))⟩,
       .updateRental 1 ⟨some .cancelled, none⟩, .aggregate]).1 := by
  decide

/-- C5 amended: for every operation sequence containing no deleteRental and no
update that sets status `cancelled`, both backends applied from the same
seeded initial state produce the same result for every operation (same rental
records, same listings, same aggregates, same error kinds). Deletions and
cancellations genuinely diverge: the volatile id allocator can reuse a deleted
id while `AUTO_INCREMENT` cannot, and the volatile revenue includes cancelled
rentals while the durable revenue excludes them. -/
theorem C5_backend_equivalence :
    ∀ ops : List Op, (∀ op ∈ ops, op.allowedB = true) →
      (volRun volInit ops).1 = (durRun durInit ops).1 :=
  fun ops h => (runEquiv relInit ops h).1

theorem C5_backend_equivalence_witness :
    (∀ op ∈ [Op.createRental ⟨some 1, some "Alice", some (some 0), some (some (2 * msPerDay))⟩,
             Op.updateRental 1 ⟨some .returned, some (some (4 * msPerDay))⟩,
             Op.aggregate, Op.listCars, Op.listRentals], op.allowedB = true) ∧
    (volRun volInit
      [Op.createRental ⟨some 1, some "Alice", some (some 0), some (some (2 * msPerDay))⟩,
       Op.updateRental 1 ⟨some .returned, some (some (4 * msPerDay))⟩,
       Op.aggregate, Op.listCars, Op.listRentals]).1 =
    (durRun durInit
      [Op.createRental ⟨some 1, some "Alice", some (some 0), some (some (2 * msPerDay))⟩,
       Op.updateRental 1 ⟨some .returned, some (some (4 * msPerDay))⟩,
       Op.aggregate, Op.listCars, Op.listRentals]).1 :=
  ⟨by decide, C5_backend_equivalence _ (by decide)⟩

end CarRental
